import Mathlib

/-
Verification of the command-execution and node-lifecycle subsystem of the
foundry-mcp server. The TypeScript sources are shallowly embedded: pure
functions become Lean functions, the effectful handlers become explicit
state-passing functions parametrised by the outcome of their external
interactions (spawn results, liveness probes, signal delivery), and the
in-memory port registry (a JS Map) becomes an association list with
Map-faithful get/set/delete operations.
-/

namespace FoundryMcp

/-! ## Process Runner (src/utils/exec.ts, exec) -/

/-- Normalized result of one subprocess invocation, mirroring the
CommandResult record of src/utils/types.ts. Exit codes are JS numbers,
modelled as integers. -/
structure CommandResult where
  success : Bool
  stdout : String
  stderr : String
  exitCode : Int
  deriving DecidableEq, Repr

/-- Outcome of the underlying Bun.spawn interaction inside exec: either the
process ran to completion with an exit code and drained streams, or the
spawn itself threw (binary missing, permission denied) with an error
message. This is the only external nondeterminism of exec. -/
inductive SpawnOutcome where
  | ok (exitCode : Int) (stdout : String) (stderr : String)
  | spawnError (message : String)
  deriving DecidableEq, Repr

/-- Embedding of exec (src/utils/exec.ts lines 3-44): the try branch builds
the result from the exit code and the trimmed streams, the catch branch
converts any spawn failure into a result value. -/
def exec (outcome : SpawnOutcome) : CommandResult :=
  match outcome with
  | .ok exitCode stdout stderr =>
      { success := exitCode == 0
        stdout := stdout.trim
        stderr := stderr.trim
        exitCode := exitCode }
  | .spawnError message =>
      { success := false, stdout := "", stderr := message, exitCode := 1 }

/-! ## Argument Serializer (src/utils/exec.ts, buildArgs) -/

/-- A value of the OptionSet mapping: string, number, boolean, or absent
(undefined). JS numbers are modelled as integers; every option schema in
the dispatch layer that feeds buildArgs declares integral numbers except
the start balance, whose stringification is out of scope here. -/
inductive OptionValue where
  | str (s : String)
  | num (n : Int)
  | bool (b : Bool)
  | undef
  deriving DecidableEq, Repr

/-- The flag derived from an option key: single-character keys get one
dash, all others two (src/utils/exec.ts line 54). -/
def flagFor (key : String) : String :=
  if key.length == 1 then "-" ++ key else "--" ++ key

/-- JS String(value) for the values that reach the two-token branch of
buildArgs. -/
def stringOfValue (v : OptionValue) : String :=
  match v with
  | .str s => s
  | .num n => toString n
  | .bool b => if b then "true" else "false"
  | .undef => "undefined"

/-- Body of the for-of loop of buildArgs (src/utils/exec.ts lines 51-61):
skip undefined and false, push the bare flag for true, otherwise push the
flag and the stringified value. -/
def buildArgsStep (args : List String) (kv : String × OptionValue) : List String :=
  match kv.2 with
  | OptionValue.undef => args
  | OptionValue.bool false => args
  | OptionValue.bool true => args ++ [flagFor kv.1]
  | v => args ++ [flagFor kv.1, stringOfValue v]

/-- Embedding of buildArgs (src/utils/exec.ts lines 46-64). Object.entries
iteration order is the insertion order of the option mapping; an OptionSet
is therefore a list of key-value pairs in that order. -/
def buildArgs (options : List (String × OptionValue)) : List String :=
  options.foldl buildArgsStep []

/-- Token contribution of a single OptionSet entry, following the
specification text for the Argument Serializer (spec section 4.1); used to
state the refinement between buildArgs and the per-entry description. -/
def entryTokens (kv : String × OptionValue) : List String :=
  match kv.2 with
  | OptionValue.undef => []
  | OptionValue.bool false => []
  | OptionValue.bool true => [flagFor kv.1]
  | v => [flagFor kv.1, stringOfValue v]

/-! ## Output Formatter (src/utils/exec.ts, formatOutput) -/

/-- JS Array.prototype.join with separator newline, as used on the parts
array of formatOutput. -/
def joinNewline : List String → String
  | [] => ""
  | [s] => s
  | s :: t :: rest => s ++ "\n" ++ joinNewline (t :: rest)

/-- Embedding of formatOutput (src/utils/exec.ts lines 66-81). On success
it returns stdout, with the JS falsy-empty-string defaulting to the
placeholder sentence; on failure it joins the optional stderr line, the
optional stdout line, and the unconditional exit-code line. -/
def formatOutput (result : CommandResult) : String :=
  if result.success then
    if result.stdout == "" then "Command completed successfully." else result.stdout
  else
    joinNewline
      ((if result.stderr == "" then [] else ["Error: " ++ result.stderr]) ++
       (if result.stdout == "" then [] else ["Output: " ++ result.stdout]) ++
       ["Exit code: " ++ toString result.exitCode])

/-! ## Node Registry and the anvil lifecycle handlers (src/tools/anvil.ts) -/

/-- A tracked Anvil instance, mirroring the AnvilInstance record of
src/utils/types.ts. -/
structure AnvilInstance where
  port : Nat
  pid : Nat
  forkUrl : Option String
  deriving DecidableEq, Repr

/-- The anvilInstances table: a JS Map from port to instance, embedded as
an association list in insertion order. -/
abbrev Registry := List (Nat × AnvilInstance)

/-- JS Map.prototype.get: the value under the key, if present. -/
def mapGet (reg : Registry) (port : Nat) : Option AnvilInstance :=
  match reg with
  | [] => none
  | (p, inst) :: rest => if p = port then some inst else mapGet rest port

/-- JS Map.prototype.set: replace in place when the key is present,
append otherwise. -/
def mapSet (reg : Registry) (port : Nat) (inst : AnvilInstance) : Registry :=
  match reg with
  | [] => [(port, inst)]
  | (p, i) :: rest =>
      if p = port then (p, inst) :: rest else (p, i) :: mapSet rest port inst

/-- JS Map.prototype.delete: drop the entry under the key. -/
def mapDelete (reg : Registry) (port : Nat) : Registry :=
  match reg with
  | [] => []
  | (p, i) :: rest => if p = port then rest else (p, i) :: mapDelete rest port

/-- Outcome of one eth_chainId liveness probe issued through the RPC
Bridge: the chain id on success, or a failure (connection refused or an
RPC-level error, both thrown by jsonRpcCall and caught by the handlers). -/
inductive ProbeResult where
  | ok (chainId : String)
  | err
  deriving DecidableEq, Repr

/-- Observable outcome of one anvil_start call: the updated registry, the
response text, whether a process was spawned, and whether that process was
killed again. -/
structure StartOutcome where
  registry : Registry
  response : String
  spawned : Bool
  killed : Bool
  deriving DecidableEq, Repr

/-- Embedding of the anvil_start handler: an already-tracked port answers
without spawning; otherwise the node is spawned (the system chooses the
pid), eth_chainId is probed after the warm-up delay, and on probe success
the instance is registered while on probe failure the process is killed
and nothing is registered. -/
def anvil_start (reg : Registry) (port : Nat) (forkUrl : Option String)
    (pid : Nat) (probe : ProbeResult) : StartOutcome :=
  if (mapGet reg port).isSome then
    { registry := reg
      response := "Anvil is already running on port " ++ toString port
      spawned := false
      killed := false }
  else
    match probe with
    | .ok chainId =>
        { registry := mapSet reg port { port := port, pid := pid, forkUrl := forkUrl }
          response := "Anvil started successfully on port " ++ toString port ++
            "\nPID: " ++ toString pid ++ "\nChain ID: " ++ chainId
          spawned := true
          killed := false }
    | .err =>
        { registry := reg
          response := "Failed to start Anvil on port " ++ toString port ++
            ". Check if the port is available."
          spawned := true
          killed := true }

/-- Observable outcome of a stop or status call: registry and response. -/
structure StatusOutcome where
  registry : Registry
  response : String
  deriving DecidableEq, Repr

/-- Embedding of the anvil_stop handler: an untracked port answers not
tracked; a tracked port gets SIGTERM sent to the recorded pid and its
entry deleted both in the try branch and in the catch branch (sigErr
carries the message of a raised kill error, none meaning delivery
succeeded). -/
def anvil_stop (reg : Registry) (port : Nat) (sigErr : Option String) : StatusOutcome :=
  match mapGet reg port with
  | none =>
      { registry := reg
        response := "No Anvil instance tracked on port " ++ toString port }
  | some _ =>
      match sigErr with
      | none =>
          { registry := mapDelete reg port
            response := "Anvil stopped on port " ++ toString port }
      | some message =>
          { registry := mapDelete reg port
            response := "Error stopping Anvil: " ++ message }

/-- Embedding of the single-port branch of the anvil_status handler: an
untracked port is probed directly and never registered; a tracked port is
re-probed, and a failing probe deletes the entry and reports it as not
responding. -/
def anvil_statusPort (reg : Registry) (port : Nat) (probe : ProbeResult) : StatusOutcome :=
  match mapGet reg port with
  | none =>
      match probe with
      | .ok chainId =>
          { registry := reg
            response := "Anvil running on port " ++ toString port ++
              " (untracked)\nChain ID: " ++ chainId }
      | .err =>
          { registry := reg
            response := "No Anvil instance running on port " ++ toString port }
  | some inst =>
      match probe with
      | .ok chainId =>
          { registry := reg
            response := "Anvil running on port " ++ toString port ++ "\nPID: " ++
              toString inst.pid ++ "\nChain ID: " ++ chainId ++ "\nFork URL: " ++
              (match inst.forkUrl with | some u => u | none => "none") }
      | .err =>
          { registry := mapDelete reg port
            response := "Anvil on port " ++ toString port ++
              " is not responding (removed from tracking)" }

/-- The all-ports loop of the anvil_status handler: walk the tracked
entries in order, keep those whose probe answers, delete those that do
not, collecting one status line per entry. -/
def statusAllGo (entries : Registry) (probes : Nat → ProbeResult) :
    Registry × List String :=
  match entries with
  | [] => ([], [])
  | (p, inst) :: rest =>
      let r := statusAllGo rest probes
      match probes p with
      | .ok chainId =>
          ((p, inst) :: r.1,
           ("Port " ++ toString p ++ ": Running (PID: " ++ toString inst.pid ++
            ", Chain ID: " ++ chainId ++ ")") :: r.2)
      | .err =>
          (r.1, ("Port " ++ toString p ++ ": Not responding (removed)") :: r.2)

/-- Embedding of the anvil_status handler: with a port argument the
single-port branch runs; without one an empty registry is reported as
such, otherwise every tracked entry is probed and the failing ones are
removed as a side effect of the read. -/
def anvil_status (reg : Registry) (port : Option Nat) (probes : Nat → ProbeResult) :
    StatusOutcome :=
  match port with
  | some p => anvil_statusPort reg p (probes p)
  | none =>
      if reg.isEmpty then
        { registry := reg, response := "No tracked Anvil instances" }
      else
        let r := statusAllGo reg probes
        { registry := r.1, response := joinNewline r.2 }

/-- One registry-touching operation of the lifecycle state machine, with
the outcomes of its external interactions as data. -/
inductive RegOp where
  | start (port : Nat) (forkUrl : Option String) (pid : Nat) (probe : ProbeResult)
  | stop (port : Nat) (sigErr : Option String)
  | status (port : Option Nat) (probes : Nat → ProbeResult)

/-- Registry effect of one operation. -/
def applyOp (reg : Registry) (op : RegOp) : Registry :=
  match op with
  | .start port forkUrl pid probe => (anvil_start reg port forkUrl pid probe).registry
  | .stop port sigErr => (anvil_stop reg port sigErr).registry
  | .status port probes => (anvil_status reg port probes).registry

/-- Registry reached after a sequence of operations. -/
def runOps (reg : Registry) (ops : List RegOp) : Registry :=
  ops.foldl applyOp reg

/-- Uniqueness invariant of the registry: at most one tracked instance per
port, i.e. the keys are pairwise distinct. -/
def keysNodup (reg : Registry) : Prop :=
  (reg.map Prod.fst).Nodup

/-! ## RPC Bridge (src/tools/anvil.ts, jsonRpcCall) and parameter encoding -/

/-- JSON values placed in RPC parameter lists by the handlers under
study: strings, numbers, and booleans. -/
inductive JsonValue where
  | str (s : String)
  | num (n : Int)
  | bool (b : Bool)
  deriving DecidableEq, Repr

/-- The error object of a JSON-RPC response, as typed inside
jsonRpcCall. -/
structure RpcError where
  message : String
  deriving DecidableEq, Repr

/-- A parsed JSON-RPC response body as typed inside jsonRpcCall: an
optional result and an optional error object. -/
structure RpcResponseBody where
  result : Option JsonValue
  error : Option RpcError
  deriving DecidableEq, Repr

/-- The request object built by jsonRpcCall before JSON encoding. -/
structure RpcRequest where
  jsonrpc : String
  id : Nat
  method : String
  params : List JsonValue
  deriving DecidableEq, Repr

/-- Request construction of jsonRpcCall: protocol version 2.0 and the
fixed request identifier 1. -/
def mkRpcRequest (method : String) (params : List JsonValue) : RpcRequest :=
  { jsonrpc := "2.0", id := 1, method := method, params := params }

/-- Response handling of jsonRpcCall: a body whose error field is present
throws the error message (caught by every handler and reported as an
ordinary failure), otherwise the result field is returned. -/
def jsonRpcCallParse (data : RpcResponseBody) : Except String (Option JsonValue) :=
  match data.error with
  | some e => Except.error e.message
  | none => Except.ok data.result

/-- Lowercase hex digit characters 0-9 and a-f. -/
def hexDigitChar (d : Nat) : Char :=
  if d < 10 then Char.ofNat (48 + d) else Char.ofNat (87 + d)

/-- Fuelled base-16 digit emitter: most significant digit first. The fuel
only bounds the recursion depth; n + 1 units always suffice because each
step divides the value by 16. -/
def toHexCore (fuel n : Nat) : List Char :=
  match fuel with
  | 0 => []
  | fuel + 1 =>
      if n < 16 then [hexDigitChar n]
      else toHexCore fuel (n / 16) ++ [hexDigitChar (n % 16)]

/-- Model of JS toString(16) on Number and BigInt for nonnegative values:
lowercase base-16 digits, most significant first, zero rendered as the
single digit 0. -/
def toHexChars (n : Nat) : List Char := toHexCore (n + 1) n

/-- String form of the hex encoding. -/
def toHexString (n : Nat) : String := String.mk (toHexChars n)

/-- Numeric value of one lowercase hex digit character. -/
def hexDigitVal (c : Char) : Option Nat :=
  if 48 ≤ c.toNat ∧ c.toNat ≤ 57 then some (c.toNat - 48)
  else if 97 ≤ c.toNat ∧ c.toNat ≤ 102 then some (c.toNat - 87)
  else none

/-- Value denoted by a most-significant-first hex digit string; used to
state that the emitted encodings denote the intended numbers. -/
def parseHexChars (cs : List Char) : Option Nat :=
  cs.foldl
    (fun acc c =>
      match acc, hexDigitVal c with
      | some a, some d => some (a * 16 + d)
      | _, _ => none)
    (some 0)

/-- Model of JS String.prototype.startsWith. -/
def jsStartsWith (s p : String) : Bool :=
  p.data.isPrefixOf s.data

/-- Numeric value of one decimal digit character. -/
def decDigitVal (c : Char) : Option Nat :=
  if 48 ≤ c.toNat ∧ c.toNat ≤ 57 then some (c.toNat - 48) else none

/-- Value denoted by a decimal digit string. -/
def parseDecChars (cs : List Char) : Option Nat :=
  cs.foldl
    (fun acc c =>
      match acc, decDigitVal c with
      | some a, some d => some (a * 10 + d)
      | _, _ => none)
    (some 0)

/-- Model of the JS BigInt constructor on the strings the claim concerns:
a string of decimal digits denotes its value, any other character makes
the constructor throw (none). Exotic accepted forms (binary, octal or hex
prefixes, surrounding whitespace) are outside the modelled scope. -/
def jsBigInt (s : String) : Option Nat :=
  parseDecChars s.data

/-- Parameters sent by the anvil_mine handler: block count and optional
interval, each hex-encoded with the 0x prefix. -/
def anvil_mine_params (blocks : Nat) (interval : Option Nat) : List JsonValue :=
  match interval with
  | some i =>
      [JsonValue.str ("0x" ++ toHexString blocks), JsonValue.str ("0x" ++ toHexString i)]
  | none => [JsonValue.str ("0x" ++ toHexString blocks)]

/-- Parameters sent by the anvil_setNextBlockTimestamp handler: the raw
timestamp number, not hex-encoded. -/
def anvil_setNextBlockTimestamp_params (timestamp : Nat) : List JsonValue :=
  [JsonValue.num timestamp]

/-- Parameters sent by the anvil_increaseTime handler: the raw seconds
number, not hex-encoded. -/
def anvil_increaseTime_params (seconds : Nat) : List JsonValue :=
  [JsonValue.num seconds]

/-- Balance normalization of the anvil_setBalance handler: a 0x-prefixed
string passes through, otherwise BigInt parses the string and renders it
in hex; none models the BigInt constructor throwing, which the handler
catches and reports. The model covers decimal digit strings, the only
unprefixed form the claim concerns. -/
def setBalanceHex (balance : String) : Option String :=
  if jsStartsWith balance "0x" then some balance
  else (jsBigInt balance).map (fun n => "0x" ++ toHexString n)

/-- Parameters sent by the anvil_setBalance handler. -/
def anvil_setBalance_params (address : String) (balance : String) :
    Option (List JsonValue) :=
  (setBalanceHex balance).map (fun h => [JsonValue.str address, JsonValue.str h])

/-- A parameter is hex-encoded when it is a string bearing the 0x
prefix. -/
def isHexParam (v : JsonValue) : Bool :=
  match v with
  | JsonValue.str s => jsStartsWith s "0x"
  | _ => false

/-! ## REPL shell piping (src/tools/chisel.ts) -/

/-- The single-quote character. -/
def sqChar : Char := Char.ofNat 39

/-- The backslash character. -/
def bsChar : Char := Char.ofNat 92

/-- The single-quote character as a one-character string. -/
def sqStr : String := String.singleton sqChar

/-- The four-character escaping idiom substituted for each embedded
single quote: quote, backslash, quote, quote. -/
def sqIdiom : List Char := [sqChar, bsChar, sqChar, sqChar]

/-- Character-level model of the global single-quote regex replace of
chisel_eval (chisel.ts line 25): a global single-character regex replace
substitutes each occurrence independently. -/
def escapeChars : List Char → List Char
  | [] => []
  | c :: rest => (if c = sqChar then sqIdiom else [c]) ++ escapeChars rest

/-- String form of the escaping. -/
def escapeSingleQuotes (s : String) : String := String.mk (escapeChars s.data)

/-- The chisel_eval pipeline command (chisel.ts line 25): echo of the
single-quoted escaped source piped into chisel with the joined flags. -/
def chisel_eval_cmd (code : String) (args : List String) : String :=
  "echo " ++ sqStr ++ escapeSingleQuotes code ++ sqStr ++ " | chisel " ++
    String.intercalate " " args

/-- The chisel_eval spawn vector (chisel.ts line 26): the pipeline is
handed to a shell. -/
def chisel_eval_argv (code : String) (args : List String) : List String :=
  ["bash", "-c", chisel_eval_cmd code args]

/-- The chisel_run spawn plan (chisel.ts lines 71-83): the source text is
written verbatim to a temporary file and the pipeline cats that file into
chisel; the command string never embeds the source text. -/
structure ChiselRunPlan where
  tmpFileContent : String
  argv : List String
  deriving DecidableEq, Repr

/-- Embedding of the chisel_run spawn preparation. -/
def chisel_run_plan (code : String) (tmpFile : String) (args : List String) :
    ChiselRunPlan :=
  { tmpFileContent := code
    argv := ["bash", "-c", "cat " ++ tmpFile ++ " | chisel " ++ String.intercalate " " args] }

/-- Argument vector of a representative non-REPL chisel operation,
chisel_load (chisel.ts line 131): a plain argument vector handed to the
Process Runner, with the value as one discrete element and no shell. -/
def chisel_load_argv (id : String) : List String :=
  ["chisel", "load", id]

/-- POSIX shell word decoding restricted to single quotes and backslash
escapes, used to state that the chisel_eval quoting is faithful: inside
quotes every character is literal until the closing quote; outside quotes
a backslash makes the next character literal and a quote opens quoting.
The boolean flag tracks whether decoding is currently inside quotes. -/
def shellUnquote : List Char → Bool → Option (List Char)
  | [], true => none
  | [], false => some []
  | c :: rest, true =>
      if c = sqChar then shellUnquote rest false
      else (shellUnquote rest true).map (fun cs => c :: cs)
  | c :: rest, false =>
      if c = sqChar then shellUnquote rest true
      else if c = bsChar then
        match rest with
        | [] => none
        | d :: rest2 => (shellUnquote rest2 false).map (fun cs => d :: cs)
      else (shellUnquote rest false).map (fun cs => c :: cs)

/-! ## Theorems -/

/-- A string of positive length is not the empty string. -/
theorem length_pos_ne_empty (s : String) (h : 0 < s.length) : s ≠ "" := by
  intro heq
  subst heq
  exact absurd h (by decide)

/-- One step of the buildArgs loop appends exactly the tokens of the
entry. -/
theorem buildArgsStep_eq (args : List String) (kv : String × OptionValue) :
    buildArgsStep args kv = args ++ entryTokens kv := by
  obtain ⟨k, v⟩ := kv
  cases v with
  | str s => rfl
  | num n => rfl
  | bool b => cases b <;> simp [buildArgsStep, entryTokens]
  | undef => simp [buildArgsStep, entryTokens]

/-- The buildArgs fold, started from any accumulator, appends the
concatenation of the per-entry token lists. -/
theorem buildArgs_foldl (options : List (String × OptionValue)) :
    ∀ acc : List String,
      options.foldl buildArgsStep acc = acc ++ (options.map entryTokens).flatten := by
  induction options with
  | nil => intro acc; simp
  | cons kv rest ih =>
      intro acc
      simp only [List.foldl_cons, List.map_cons, List.flatten_cons]
      rw [buildArgsStep_eq, ih, List.append_assoc]

/-- Claim C1: exec is total over every spawn outcome (it never raises: both
the completed and the failed spawn are mapped to a CommandResult value);
in every result, success holds exactly when the exit code is zero; and a
spawn failure is represented as success false, exit code 1, empty stdout,
and stderr carrying the failure description. -/
theorem exec_never_raises (outcome : SpawnOutcome) :
    ((exec outcome).success = ((exec outcome).exitCode == 0))
    ∧ (∀ message, outcome = SpawnOutcome.spawnError message →
        (exec outcome).success = false ∧ (exec outcome).exitCode = 1 ∧
        (exec outcome).stderr = message ∧ (exec outcome).stdout = "") := by
  constructor
  · cases outcome with
    | ok exitCode stdout stderr => rfl
    | spawnError message => rfl
  · intro message h
    subst h
    exact ⟨rfl, rfl, rfl, rfl⟩

/-- Witness for C1 at the concrete spawn failure with message boom. -/
theorem exec_never_raises_witness :
    (exec (SpawnOutcome.spawnError "boom")).success = false ∧
    (exec (SpawnOutcome.spawnError "boom")).exitCode = 1 ∧
    (exec (SpawnOutcome.spawnError "boom")).stderr = "boom" ∧
    (exec (SpawnOutcome.spawnError "boom")).stdout = "" :=
  (exec_never_raises (SpawnOutcome.spawnError "boom")).2 "boom" rfl

/-- Claim C2: buildArgs emits, in the insertion order of the mapping, the
concatenation of per-entry token lists, where a length-1 key yields the
flag -key and any other key the flag --key; undefined and boolean false
contribute zero tokens, boolean true contributes the flag alone, and any
other value (including the number 0 and the empty string) contributes the
flag followed by its stringification. -/
theorem buildArgs_spec (options : List (String × OptionValue)) :
    buildArgs options = (options.map entryTokens).flatten
    ∧ (∀ key : String, key.length = 1 → flagFor key = "-" ++ key)
    ∧ (∀ key : String, key.length ≠ 1 → flagFor key = "--" ++ key)
    ∧ (∀ key : String,
        entryTokens (key, OptionValue.undef) = []
        ∧ entryTokens (key, OptionValue.bool false) = []
        ∧ entryTokens (key, OptionValue.bool true) = [flagFor key])
    ∧ (∀ key s, entryTokens (key, OptionValue.str s) = [flagFor key, s])
    ∧ (∀ key n, entryTokens (key, OptionValue.num n) = [flagFor key, toString n]) := by
  refine ⟨?_, ?_, ?_, ?_, ?_, ?_⟩
  · simpa [buildArgs] using buildArgs_foldl options []
  · intro key h
    simp [flagFor, h]
  · intro key h
    simp [flagFor, h]
  · intro key
    exact ⟨rfl, by simp [entryTokens], by simp [entryTokens]⟩
  · intro key s
    rfl
  · intro key n
    rfl

/-- Witness for C2 at a one-character key, a long key, and the value 0. -/
theorem buildArgs_spec_witness :
    flagFor "p" = "-p" ∧ flagFor "port" = "--port" ∧
    buildArgs [("p", OptionValue.num 0)] = [flagFor "p", toString (0 : Int)] :=
  ⟨(buildArgs_spec []).2.1 "p" (by decide),
   (buildArgs_spec []).2.2.1 "port" (by decide),
   by simpa using (buildArgs_spec [("p", OptionValue.num 0)]).1⟩

/-- Claim C3: formatOutput is a pure function of the result record; on
success it returns stdout, or the fixed placeholder sentence when stdout
is empty; on failure it joins with newlines the stderr line when stderr is
non-empty, the stdout line when stdout is non-empty, and always the
exit-code line; hence a failing result always formats to non-empty
text. -/
theorem formatOutput_spec (result : CommandResult) :
    (result.success = true → result.stdout = "" →
        formatOutput result = "Command completed successfully.")
    ∧ (result.success = true → result.stdout ≠ "" → formatOutput result = result.stdout)
    ∧ (result.success = false →
        formatOutput result = joinNewline
          ((if result.stderr = "" then [] else ["Error: " ++ result.stderr]) ++
           (if result.stdout = "" then [] else ["Output: " ++ result.stdout]) ++
           ["Exit code: " ++ toString result.exitCode]))
    ∧ (result.success = false → formatOutput result ≠ "") := by
  refine ⟨?_, ?_, ?_, ?_⟩
  · intro hs h0
    simp [formatOutput, hs, h0]
  · intro hs h0
    simp [formatOutput, hs, h0]
  · intro hs
    simp [formatOutput, hs]
  · intro hs
    simp only [formatOutput, hs, Bool.false_eq_true, if_false]
    by_cases he : result.stderr == ""
    · by_cases ho : result.stdout == ""
      · simp only [he, ho, if_true, List.nil_append, joinNewline]
        apply length_pos_ne_empty
        simp [String.length_append]
        exact Or.inl (by decide)
      · simp only [he, ho, if_true, if_false, List.nil_append, List.cons_append,
          List.nil_append, joinNewline]
        apply length_pos_ne_empty
        simp [String.length_append]
        exact Or.inl (Or.inl (Or.inl (by decide)))
    · by_cases ho : result.stdout == ""
      · simp only [he, ho, if_true, if_false, List.cons_append, List.nil_append, joinNewline]
        apply length_pos_ne_empty
        simp [String.length_append]
        exact Or.inl (Or.inl (Or.inl (by decide)))
      · simp only [he, ho, if_false, List.cons_append, List.nil_append, joinNewline]
        apply length_pos_ne_empty
        simp [String.length_append]
        exact Or.inl (Or.inl (Or.inl (by decide)))

/-- Witness for C3 at a successful result with empty stdout and at a
failing result with both streams empty and exit code 2. -/
theorem formatOutput_spec_witness :
    formatOutput { success := true, stdout := "", stderr := "", exitCode := 0 } =
      "Command completed successfully."
    ∧ formatOutput { success := false, stdout := "", stderr := "", exitCode := 2 } ≠ "" :=
  ⟨(formatOutput_spec { success := true, stdout := "", stderr := "", exitCode := 0 }).1 rfl rfl,
   (formatOutput_spec { success := false, stdout := "", stderr := "", exitCode := 2 }).2.2.2 rfl⟩

/-- mapGet misses exactly the ports outside the key list. -/
theorem mapGet_eq_none_iff (reg : Registry) (port : Nat) :
    mapGet reg port = none ↔ port ∉ reg.map Prod.fst := by
  induction reg with
  | nil => simp [mapGet]
  | cons kv rest ih =>
      obtain ⟨p, inst⟩ := kv
      simp only [mapGet, List.map_cons, List.mem_cons]
      by_cases h : p = port
      · subst h
        simp
      · rw [if_neg h, ih]
        constructor
        · intro hn hc
          rcases hc with hc | hc
          · exact h hc.symm
          · exact hn hc
        · intro hn hc
          exact hn (Or.inr hc)

/-- Every key of a set result is the inserted key or an old key. -/
theorem mem_keys_mapSet (reg : Registry) (port : Nat) (inst : AnvilInstance) (a : Nat)
    (h : a ∈ (mapSet reg port inst).map Prod.fst) :
    a = port ∨ a ∈ reg.map Prod.fst := by
  induction reg with
  | nil => simpa [mapSet] using h
  | cons kv rest ih =>
      obtain ⟨p, i⟩ := kv
      by_cases hp : p = port
      · subst hp
        simpa [mapSet] using h
      · simp only [mapSet, hp, if_false, List.map_cons, List.mem_cons] at h
        rcases h with h | h
        · exact Or.inr (by simp [h])
        · rcases ih h with h | h
          · exact Or.inl h
          · exact Or.inr (by simp [h])

/-- mapSet preserves key uniqueness. -/
theorem keysNodup_mapSet (reg : Registry) (port : Nat) (inst : AnvilInstance)
    (h : keysNodup reg) : keysNodup (mapSet reg port inst) := by
  induction reg with
  | nil => simp [keysNodup, mapSet]
  | cons kv rest ih =>
      obtain ⟨p, i⟩ := kv
      simp only [keysNodup, List.map_cons, List.nodup_cons] at h
      by_cases hp : p = port
      · subst hp
        simpa [keysNodup, mapSet] using h
      · have hrest := ih h.2
        simp only [keysNodup, mapSet, hp, if_false, List.map_cons, List.nodup_cons]
        refine ⟨?_, hrest⟩
        intro hmem
        rcases mem_keys_mapSet rest port inst p hmem with hc | hc
        · exact hp hc
        · exact h.1 hc

/-- mapDelete yields a sublist of the original registry. -/
theorem mapDelete_sublist (reg : Registry) (port : Nat) :
    (mapDelete reg port).Sublist reg := by
  induction reg with
  | nil => simp [mapDelete]
  | cons kv rest ih =>
      obtain ⟨p, i⟩ := kv
      by_cases hp : p = port
      · rw [mapDelete, if_pos hp]
        exact List.sublist_cons_self (p, i) rest
      · simpa [mapDelete, hp] using List.Sublist.cons₂ (p, i) ih

/-- mapDelete preserves key uniqueness. -/
theorem keysNodup_mapDelete (reg : Registry) (port : Nat) (h : keysNodup reg) :
    keysNodup (mapDelete reg port) :=
  List.Nodup.sublist (List.Sublist.map Prod.fst (mapDelete_sublist reg port)) h

/-- Deleting under a unique-key registry really removes the port. -/
theorem mapGet_mapDelete_self (reg : Registry) (port : Nat) (h : keysNodup reg) :
    mapGet (mapDelete reg port) port = none := by
  induction reg with
  | nil => simp [mapDelete, mapGet]
  | cons kv rest ih =>
      obtain ⟨p, i⟩ := kv
      simp only [keysNodup, List.map_cons, List.nodup_cons] at h
      by_cases hp : p = port
      · subst hp
        simp only [mapDelete, if_pos rfl]
        exact (mapGet_eq_none_iff rest p).2 h.1
      · simp only [mapDelete, hp, if_false, mapGet, if_neg hp]
        exact ih h.2

/-- The surviving entries of the all-ports status walk form a sublist. -/
theorem statusAllGo_sublist (reg : Registry) (probes : Nat → ProbeResult) :
    (statusAllGo reg probes).1.Sublist reg := by
  induction reg with
  | nil => simp [statusAllGo]
  | cons kv rest ih =>
      obtain ⟨p, i⟩ := kv
      cases hp : probes p with
      | ok chainId => simpa [statusAllGo, hp] using List.Sublist.cons₂ (p, i) ih
      | err => simpa [statusAllGo, hp] using List.Sublist.cons (p, i) ih

/-- A port whose probe fails does not survive the all-ports status walk. -/
theorem mapGet_statusAllGo_err (reg : Registry) (probes : Nat → ProbeResult) (port : Nat)
    (h : probes port = ProbeResult.err) :
    mapGet (statusAllGo reg probes).1 port = none := by
  induction reg with
  | nil => simp [statusAllGo, mapGet]
  | cons kv rest ih =>
      obtain ⟨p, i⟩ := kv
      cases hp : probes p with
      | ok chainId =>
          have hne : p ≠ port := by
            intro he
            rw [he, h] at hp
            exact ProbeResult.noConfusion hp
          simp only [statusAllGo, hp, mapGet, if_neg hne]
          exact ih
      | err =>
          simp only [statusAllGo, hp]
          exact ih

/-- Every operation of the lifecycle state machine preserves the
uniqueness invariant. -/
theorem keysNodup_applyOp (reg : Registry) (op : RegOp) (h : keysNodup reg) :
    keysNodup (applyOp reg op) := by
  cases op with
  | start port forkUrl pid probe =>
      simp only [applyOp, anvil_start]
      by_cases hs : (mapGet reg port).isSome
      · simpa [hs] using h
      · cases probe with
        | ok chainId => simpa [hs] using keysNodup_mapSet reg port _ h
        | err => simpa [hs] using h
  | stop port sigErr =>
      simp only [applyOp, anvil_stop]
      cases mapGet reg port with
      | none => exact h
      | some inst =>
          cases sigErr with
          | none => exact keysNodup_mapDelete reg port h
          | some message => exact keysNodup_mapDelete reg port h
  | status port probes =>
      cases port with
      | some p =>
          simp only [applyOp, anvil_status, anvil_statusPort]
          cases mapGet reg p with
          | none => cases probes p <;> exact h
          | some inst =>
              cases probes p with
              | ok chainId => exact h
              | err => exact keysNodup_mapDelete reg p h
      | none =>
          simp only [applyOp, anvil_status]
          by_cases he : reg.isEmpty
          · simpa [he] using h
          · simpa [he] using
              List.Nodup.sublist (List.Sublist.map Prod.fst (statusAllGo_sublist reg probes)) h

/-- Any sequence of operations preserves the uniqueness invariant. -/
theorem keysNodup_runOps (reg : Registry) (ops : List RegOp) (h : keysNodup reg) :
    keysNodup (runOps reg ops) := by
  induction ops generalizing reg with
  | nil => exact h
  | cons op rest ih => exact ih (applyOp reg op) (keysNodup_applyOp reg op h)

/-- Claim C4: starting on a port whose registry entry exists answers
already running without spawning and leaves the registry untouched, and
every sequence of start, stop and status operations run from the
initially empty registry keeps at most one tracked instance per port. -/
theorem anvil_start_idempotent_and_unique (reg : Registry) (port : Nat)
    (forkUrl : Option String) (pid : Nat) (probe : ProbeResult) (inst : AnvilInstance)
    (h : mapGet reg port = some inst) (ops : List RegOp) :
    ((anvil_start reg port forkUrl pid probe).registry = reg
      ∧ (anvil_start reg port forkUrl pid probe).response =
          "Anvil is already running on port " ++ toString port
      ∧ (anvil_start reg port forkUrl pid probe).spawned = false)
    ∧ keysNodup (runOps [] ops) := by
  constructor
  · have hs : (mapGet reg port).isSome := by rw [h]; rfl
    refine ⟨?_, ?_, ?_⟩ <;> simp [anvil_start, hs]
  · exact keysNodup_runOps [] ops (by simp [keysNodup])

/-- Witness for C4: a second start on the tracked port 8545 changes
nothing, and a demo operation sequence from the empty registry keeps
unique keys. -/
theorem anvil_start_idempotent_and_unique_witness :
    (anvil_start [(8545, ⟨8545, 111, none⟩)] 8545 none 222 ProbeResult.err).registry
        = [(8545, ⟨8545, 111, none⟩)]
    ∧ keysNodup (runOps []
        [RegOp.start 8545 none 1 (ProbeResult.ok "0x1"),
         RegOp.start 8545 none 2 (ProbeResult.ok "0x1"),
         RegOp.stop 8545 none]) := by
  have h := anvil_start_idempotent_and_unique [(8545, ⟨8545, 111, none⟩)] 8545 none 222
      ProbeResult.err ⟨8545, 111, none⟩ (by rfl)
      [RegOp.start 8545 none 1 (ProbeResult.ok "0x1"),
       RegOp.start 8545 none 2 (ProbeResult.ok "0x1"),
       RegOp.stop 8545 none]
  exact ⟨h.1.1, h.2⟩

/-- Claim C5: when the port is untracked and the post-spawn eth_chainId
probe fails, anvil_start kills the spawned process, reports the failure,
and registers nothing: the registry is exactly what it was. -/
theorem anvil_start_probe_failure (reg : Registry) (port : Nat)
    (forkUrl : Option String) (pid : Nat) (h : mapGet reg port = none) :
    (anvil_start reg port forkUrl pid ProbeResult.err).registry = reg
    ∧ (anvil_start reg port forkUrl pid ProbeResult.err).killed = true
    ∧ (anvil_start reg port forkUrl pid ProbeResult.err).spawned = true
    ∧ (anvil_start reg port forkUrl pid ProbeResult.err).response =
        "Failed to start Anvil on port " ++ toString port ++
          ". Check if the port is available." := by
  refine ⟨?_, ?_, ?_, ?_⟩ <;> simp [anvil_start, h]

/-- Witness for C5 on the empty registry at port 8545. -/
theorem anvil_start_probe_failure_witness :
    (anvil_start [] 8545 none 222 ProbeResult.err).registry = []
    ∧ (anvil_start [] 8545 none 222 ProbeResult.err).killed = true :=
  ⟨(anvil_start_probe_failure [] 8545 none 222 rfl).1,
   (anvil_start_probe_failure [] 8545 none 222 rfl).2.1⟩

/-- Claim C6: a single-port status call on a tracked entry whose probe
fails removes the entry and reports it as not responding, leaving the port
untracked so that a repeat status call reports no instance; a status call
on an untracked port leaves the registry unchanged for every probe
outcome; and the all-ports status walk removes every tracked entry whose
probe fails. -/
theorem anvil_status_self_healing (reg : Registry) (port : Nat) (inst : AnvilInstance)
    (probes : Nat → ProbeResult) (hnd : keysNodup reg) :
    (mapGet reg port = some inst →
        (anvil_statusPort reg port ProbeResult.err).registry = mapDelete reg port
        ∧ (anvil_statusPort reg port ProbeResult.err).response =
            "Anvil on port " ++ toString port ++ " is not responding (removed from tracking)"
        ∧ mapGet (anvil_statusPort reg port ProbeResult.err).registry port = none
        ∧ (anvil_statusPort (anvil_statusPort reg port ProbeResult.err).registry port
              ProbeResult.err).response =
            "No Anvil instance running on port " ++ toString port)
    ∧ (mapGet reg port = none →
        ∀ probe, (anvil_statusPort reg port probe).registry = reg)
    ∧ (mapGet reg port = some inst → probes port = ProbeResult.err →
        mapGet (anvil_status reg none probes).registry port = none) := by
  refine ⟨?_, ?_, ?_⟩
  · intro h
    have hdel : mapGet (mapDelete reg port) port = none := mapGet_mapDelete_self reg port hnd
    refine ⟨?_, ?_, ?_, ?_⟩
    · simp [anvil_statusPort, h]
    · simp [anvil_statusPort, h]
    · simpa [anvil_statusPort, h] using hdel
    · simp [anvil_statusPort, h, hdel]
  · intro h probe
    cases probe <;> simp [anvil_statusPort, h]
  · intro h herr
    have hne : reg.isEmpty = false := by
      cases reg with
      | nil => simp [mapGet] at h
      | cons kv rest => rfl
    simp only [anvil_status, hne, Bool.false_eq_true, if_false]
    exact mapGet_statusAllGo_err reg probes port herr

/-- Witness for C6 at a registry tracking port 8545 with a failing
probe. -/
theorem anvil_status_self_healing_witness :
    (anvil_statusPort [(8545, ⟨8545, 111, none⟩)] 8545 ProbeResult.err).registry = []
    ∧ mapGet (anvil_status [(8545, ⟨8545, 111, none⟩)] none (fun _ => ProbeResult.err)).registry
        8545 = none := by
  have h := anvil_status_self_healing [(8545, ⟨8545, 111, none⟩)] 8545 ⟨8545, 111, none⟩
      (fun _ => ProbeResult.err) (by simp [keysNodup])
  exact ⟨(h.1 rfl).1, h.2.2 rfl rfl⟩

/-- Claim C7: stopping a tracked port removes its entry from the registry
whether the termination signal is delivered or raises, so a failed signal
never leaves a stale entry; stopping an untracked port reports a
not-tracked result and leaves the registry unchanged. -/
theorem anvil_stop_best_effort (reg : Registry) (port : Nat) (inst : AnvilInstance)
    (hnd : keysNodup reg) :
    (mapGet reg port = some inst →
        ∀ sigErr, (anvil_stop reg port sigErr).registry = mapDelete reg port
          ∧ mapGet (anvil_stop reg port sigErr).registry port = none)
    ∧ (mapGet reg port = none →
        ∀ sigErr, (anvil_stop reg port sigErr).registry = reg
          ∧ (anvil_stop reg port sigErr).response =
              "No Anvil instance tracked on port " ++ toString port) := by
  constructor
  · intro h sigErr
    have hdel : mapGet (mapDelete reg port) port = none := mapGet_mapDelete_self reg port hnd
    cases sigErr with
    | none => exact ⟨by simp [anvil_stop, h], by simpa [anvil_stop, h] using hdel⟩
    | some message => exact ⟨by simp [anvil_stop, h], by simpa [anvil_stop, h] using hdel⟩
  · intro h sigErr
    exact ⟨by simp [anvil_stop, h], by simp [anvil_stop, h]⟩

/-- Witness for C7: stopping tracked port 8545 with a raising signal still
removes the entry, and stopping untracked port 9000 changes nothing. -/
theorem anvil_stop_best_effort_witness :
    (anvil_stop [(8545, ⟨8545, 111, none⟩)] 8545 (some "ESRCH")).registry = []
    ∧ (anvil_stop [(8545, ⟨8545, 111, none⟩)] 9000 none).registry =
        [(8545, ⟨8545, 111, none⟩)] := by
  have h1 := anvil_stop_best_effort [(8545, ⟨8545, 111, none⟩)] 8545 ⟨8545, 111, none⟩
      (by simp [keysNodup])
  have h2 := anvil_stop_best_effort [(8545, ⟨8545, 111, none⟩)] 9000 ⟨8545, 111, none⟩
      (by simp [keysNodup])
  refine ⟨?_, (h2.2 (by rfl) none).1⟩
  have := (h1.1 rfl (some "ESRCH")).1
  simpa [mapDelete] using this

/-- Each lowercase hex digit character decodes back to its value. -/
theorem hexDigitVal_hexDigitChar : ∀ d, d < 16 → hexDigitVal (hexDigitChar d) = some d := by
  decide

/-- Appending one decodable digit multiplies the decoded prefix value by
16 and adds the digit. -/
theorem parseHexChars_append_digit (cs : List Char) (c : Char) (a d : Nat)
    (h1 : parseHexChars cs = some a) (h2 : hexDigitVal c = some d) :
    parseHexChars (cs ++ [c]) = some (a * 16 + d) := by
  unfold parseHexChars at h1 ⊢
  rw [List.foldl_append, h1, List.foldl_cons, List.foldl_nil, h2]

/-- Under sufficient fuel, the emitted hex digits decode to the encoded
number. -/
theorem parseHexChars_toHexCore (fuel : Nat) :
    ∀ n, n < fuel → parseHexChars (toHexCore fuel n) = some n := by
  induction fuel with
  | zero => intro n h; omega
  | succ fuel ih =>
      intro n h
      by_cases h16 : n < 16
      · simp only [toHexCore, if_pos h16]
        simp [parseHexChars, hexDigitVal_hexDigitChar n h16]
      · simp only [toHexCore, if_neg h16]
        have hdiv : n / 16 < n := Nat.div_lt_self (by omega) (by omega)
        rw [parseHexChars_append_digit _ _ (n / 16) (n % 16)
            (ih (n / 16) (by omega)) (hexDigitVal_hexDigitChar (n % 16) (by omega))]
        exact congrArg some (by omega)

/-- The hex encoding denotes the encoded number. -/
theorem parseHexChars_toHexChars (n : Nat) : parseHexChars (toHexChars n) = some n :=
  parseHexChars_toHexCore (n + 1) n (by omega)

/-- A string formed by appending to the 0x prefix starts with that
prefix. -/
theorem jsStartsWith_append_0x (s : String) : jsStartsWith ("0x" ++ s) "0x" = true := by
  simp only [jsStartsWith, String.data_append, List.isPrefixOf_iff_prefix]
  exact List.prefix_append _ _

/-- Claim C8 as stated fails on a body carrying both fields: the call
fails with the error message instead of yielding the result value that
the body also carries. -/
theorem jsonRpcCall_both_fields_counterexample :
    jsonRpcCallParse
        { result := some (JsonValue.str "0x1"), error := some { message := "boom" } } =
      Except.error "boom"
    ∧ jsonRpcCallParse
        { result := some (JsonValue.str "0x1"), error := some { message := "boom" } } ≠
      Except.ok (some (JsonValue.str "0x1")) :=
  ⟨rfl, fun h => Except.noConfusion h⟩

/-- Claim C8 amended: a response body carrying no error field yields
exactly its result field; a body carrying an error field fails with
exactly the error message, even when a result field is also present,
surfaced as an ordinary failure value; and every request is built with
protocol version 2.0 and the fixed identifier 1. -/
theorem jsonRpcCall_spec (data : RpcResponseBody) :
    (data.error = none → jsonRpcCallParse data = Except.ok data.result)
    ∧ (∀ e, data.error = some e → jsonRpcCallParse data = Except.error e.message)
    ∧ (∀ method params, (mkRpcRequest method params).id = 1
        ∧ (mkRpcRequest method params).jsonrpc = "2.0"
        ∧ (mkRpcRequest method params).method = method
        ∧ (mkRpcRequest method params).params = params) := by
  refine ⟨?_, ?_, ?_⟩
  · intro h
    simp [jsonRpcCallParse, h]
  · intro e h
    simp [jsonRpcCallParse, h]
  · intro method params
    exact ⟨rfl, rfl, rfl, rfl⟩

/-- Witness for C8 amended at the two bodies used as examples by the
specification. -/
theorem jsonRpcCall_spec_witness :
    jsonRpcCallParse { result := some (JsonValue.str "0x1"), error := none } =
      Except.ok (some (JsonValue.str "0x1"))
    ∧ jsonRpcCallParse { result := none, error := some { message := "boom" } } =
      Except.error "boom" :=
  ⟨(jsonRpcCall_spec { result := some (JsonValue.str "0x1"), error := none }).1 rfl,
   (jsonRpcCall_spec { result := none, error := some { message := "boom" } }).2.1
      { message := "boom" } rfl⟩

/-- Claim C9 as stated fails: anvil_increaseTime places the raw number 10
in the parameter list rather than a 0x-prefixed hex string, and
anvil_setNextBlockTimestamp does the same with its timestamp. -/
theorem increaseTime_param_not_hex :
    anvil_increaseTime_params 10 = [JsonValue.num 10]
    ∧ isHexParam (JsonValue.num 10) = false
    ∧ anvil_setNextBlockTimestamp_params 1700000000 = [JsonValue.num 1700000000]
    ∧ isHexParam (JsonValue.num 1700000000) = false :=
  ⟨rfl, rfl, rfl, rfl⟩

/-- Claim C9 amended: anvil_mine hex-encodes its block count and interval
with the 0x prefix and the emitted digits denote the original numbers,
and anvil_setBalance converts a decimal balance string to the 0x-prefixed
hex form unless it is already prefixed; anvil_setNextBlockTimestamp and
anvil_increaseTime, however, pass their numbers raw, without the hex
convention. -/
theorem numeric_param_encoding (blocks i ts secs n : Nat) (address balance : String) :
    (anvil_mine_params blocks (some i) =
        [JsonValue.str ("0x" ++ toHexString blocks), JsonValue.str ("0x" ++ toHexString i)]
      ∧ anvil_mine_params blocks none = [JsonValue.str ("0x" ++ toHexString blocks)]
      ∧ ∀ v ∈ anvil_mine_params blocks (some i), isHexParam v = true)
    ∧ parseHexChars (toHexChars n) = some n
    ∧ (jsStartsWith balance "0x" = true →
        anvil_setBalance_params address balance =
          some [JsonValue.str address, JsonValue.str balance])
    ∧ (jsStartsWith balance "0x" = false → jsBigInt balance = some n →
        anvil_setBalance_params address balance =
          some [JsonValue.str address, JsonValue.str ("0x" ++ toHexString n)])
    ∧ anvil_setNextBlockTimestamp_params ts = [JsonValue.num ts]
    ∧ anvil_increaseTime_params secs = [JsonValue.num secs] := by
  refine ⟨⟨rfl, rfl, ?_⟩, parseHexChars_toHexChars n, ?_, ?_, rfl, rfl⟩
  · intro v hv
    simp only [anvil_mine_params, List.mem_cons, List.not_mem_nil, or_false] at hv
    rcases hv with h | h <;> subst h <;> simp [isHexParam, jsStartsWith_append_0x]
  · intro h
    simp [anvil_setBalance_params, setBalanceHex, h]
  · intro h hn
    simp [anvil_setBalance_params, setBalanceHex, h, hn]

/-- Witness for C9 amended at blocks 2, interval 3, the prefixed balance
0x10, and the decimal balance 255. -/
theorem numeric_param_encoding_witness :
    anvil_mine_params 2 (some 3) = [JsonValue.str "0x2", JsonValue.str "0x3"]
    ∧ anvil_setBalance_params "0xabc" "0x10" =
        some [JsonValue.str "0xabc", JsonValue.str "0x10"]
    ∧ anvil_setBalance_params "0xabc" "255" =
        some [JsonValue.str "0xabc", JsonValue.str "0xff"] := by
  have hdec := numeric_param_encoding 2 3 0 0 255 "0xabc" "255"
  have hpre := numeric_param_encoding 2 3 0 0 0 "0xabc" "0x10"
  refine ⟨?_, ?_, ?_⟩
  · rw [hdec.1.1]
    decide
  · exact hpre.2.2.1 (by decide)
  · rw [hdec.2.2.2.1 (by decide) (by decide)]
    decide

/-- A quote inside quotes closes the quoting. -/
theorem shellUnquote_sq_true (l : List Char) :
    shellUnquote (sqChar :: l) true = shellUnquote l false := by
  rw [shellUnquote.eq_def]
  simp

/-- A quote outside quotes opens the quoting. -/
theorem shellUnquote_sq_false (l : List Char) :
    shellUnquote (sqChar :: l) false = shellUnquote l true := by
  rw [shellUnquote.eq_def]
  simp

/-- A backslash outside quotes makes the next character literal. -/
theorem shellUnquote_bs_false (d : Char) (l : List Char) :
    shellUnquote (bsChar :: d :: l) false =
      (shellUnquote l false).map (fun cs => d :: cs) := by
  have h1 : bsChar ≠ sqChar := by decide
  rw [shellUnquote.eq_def]
  simp [h1]

/-- Any other character inside quotes is literal. -/
theorem shellUnquote_other_true (c : Char) (l : List Char) (h : c ≠ sqChar) :
    shellUnquote (c :: l) true = (shellUnquote l true).map (fun cs => c :: cs) := by
  rw [shellUnquote.eq_def]
  simp [h]

/-- Decoding the escaped text followed by the closing quote, starting
inside quotes, recovers the original text. -/
theorem shellUnquote_escapeChars (cs : List Char) :
    shellUnquote (escapeChars cs ++ [sqChar]) true = some cs := by
  induction cs with
  | nil =>
      simp only [escapeChars, List.nil_append]
      rw [shellUnquote_sq_true]
      rfl
  | cons c rest ih =>
      by_cases h : c = sqChar
      · subst h
        simp only [escapeChars, sqIdiom, eq_self_iff_true, if_true, List.cons_append,
          List.append_assoc, List.nil_append]
        rw [shellUnquote_sq_true, shellUnquote_bs_false, shellUnquote_sq_false, ih]
        rfl
      · simp only [escapeChars, if_neg h, List.cons_append, List.nil_append]
        rw [shellUnquote_other_true c _ h, ih]
        rfl

/-- Claim C10 as stated fails on chisel_run: for a source text containing
a single quote, the pipeline command is built from the temporary file
name alone and contains no quote character at all, so the source text is
not single-quoted inside the shell-interpreted pipeline (it travels
through the temporary file instead). -/
theorem chisel_run_not_quoted_counterexample :
    (chisel_run_plan sqStr "/tmp/chisel_1.sol" []).argv =
      ["bash", "-c", "cat /tmp/chisel_1.sol | chisel "]
    ∧ ("cat /tmp/chisel_1.sol | chisel ").data.contains sqChar = false
    ∧ (chisel_run_plan sqStr "/tmp/chisel_1.sol" []).tmpFileContent = sqStr := by
  exact ⟨by decide, by decide, rfl⟩

/-- Claim C10 amended: both REPL operations run their pipeline through a
shell; chisel_eval embeds the source single-quoted with each embedded
quote escaped by the idiom, and decoding that quoted word under shell
quoting rules recovers the source exactly; chisel_run instead writes the
source verbatim to a temporary file and cats that file, embedding none of
the source text in the command; the remaining operations pass values as
discrete argument-vector elements with no shell. -/
theorem repl_shell_piping (code tmpFile : String) (args : List String) (id : String) :
    chisel_eval_argv code args =
      ["bash", "-c",
        "echo " ++ sqStr ++ escapeSingleQuotes code ++ sqStr ++ " | chisel " ++
          String.intercalate " " args]
    ∧ shellUnquote (sqStr ++ escapeSingleQuotes code ++ sqStr).data false = some code.data
    ∧ (chisel_run_plan code tmpFile args).tmpFileContent = code
    ∧ (chisel_run_plan code tmpFile args).argv =
        ["bash", "-c", "cat " ++ tmpFile ++ " | chisel " ++ String.intercalate " " args]
    ∧ chisel_load_argv id = ["chisel", "load", id] := by
  refine ⟨rfl, ?_, rfl, rfl, rfl⟩
  have hdata : (sqStr ++ escapeSingleQuotes code ++ sqStr).data
      = sqChar :: (escapeChars code.data ++ [sqChar]) := by
    simp [sqStr, escapeSingleQuotes, String.singleton, String.data_append]
  rw [hdata, shellUnquote_sq_false]
  exact shellUnquote_escapeChars code.data

end FoundryMcp
